import Mathlib

/-!
Verification of the Hermes D3 generation server (`server.py`).

The development shallowly embeds the string-processing logic of the server:

* `pysplit sep s` models Python's `s.split(sep)` for a non-empty separator:
  the greedy left-to-right scan over non-overlapping occurrences of `sep`.
* `pystrip` models Python's `str.strip()` (ASCII whitespace).
* `generate_d3_strip` / `generate_d3_post` model the post-processing in the
  `generate_d3` endpoint (server.py lines 159-182); the `Option` result models
  the possible `IndexError` from `split(...)[1]`.
* `chat_post` models the post-processing in the `chat` endpoint (line 210).
* `generate_d3_handler` / `chat_handler` model the endpoint control flow; the
  `Except String String` argument is an oracle for the outcome of prompt
  construction, tokenization, generation and decoding (external library calls):
  `.error e` is an exception with message `e`, `.ok txt` the decoded text.
* `create_d3_user_prompt` / `create_d3_messages` model `create_d3_prompt`
  (lines 40-120) up to the external `tokenizer.apply_chat_template` call.
-/

set_option maxRecDepth 20000

/-- Fuel-driven implementation of Python's `str.split` on `List Char`.
The fuel is an upper bound on the length of the string; `pysplit` supplies
`s.length`, which always suffices. -/
def pysplitFuel (sep : List Char) : Nat → List Char → List (List Char)
  | _, [] => [[]]
  | 0, s => [s]
  | fuel + 1, c :: cs =>
    if sep ≠ [] ∧ sep <+: (c :: cs) then
      [] :: pysplitFuel sep fuel (cs.drop (sep.length - 1))
    else
      match pysplitFuel sep fuel cs with
      | [] => [[c]]
      | h :: t => (c :: h) :: t

/-- Python's `s.split(sep)` for a non-empty separator `sep`: scan left to
right, splitting at each non-overlapping occurrence of `sep`. -/
def pysplit (sep s : List Char) : List (List Char) :=
  pysplitFuel sep s.length s

/-- Python's `lst[-1]` on the (always non-empty) result of `split`. -/
def pyLast (ls : List (List Char)) : List Char :=
  ls.getLastD []

/-- Python's default `str.strip` whitespace set (ASCII part). -/
def pyIsSpace (c : Char) : Bool :=
  c = ' ' || c = '\t' || c = '\n' || c = '\r' || c = '\x0b' || c = '\x0c'

/-- Python's `s.strip()`: drop leading and trailing whitespace. -/
def pystrip (s : List Char) : List Char :=
  ((s.dropWhile pyIsSpace).reverse.dropWhile pyIsSpace).reverse

/-- The assistant turn marker split on at server.py lines 161 and 210. -/
def marker : List Char := "<|im_start|>assistant\n".toList

/-- The fence tag tested with `in` at line 163. -/
def jsTag : List Char := "```javascript".toList

/-- The fence opener split on at line 164. -/
def jsFence : List Char := "```javascript\n".toList

/-- The closing fence tested and split on at lines 165-166. -/
def closeFence : List Char := "```".toList

/-- Two backticks; used to state that a code block's body neither contains
a closing fence nor ends in backticks that would merge with the fence. -/
def twoBt : List Char := "``".toList

/-- Lines 163-166 and 182 of server.py: strip the code fences from the
assistant response and trim whitespace.  `none` models the `IndexError`
raised by `split("...")[1]` when the split yields fewer than two parts. -/
def generate_d3_strip (assistant : List Char) : Option (List Char) :=
  match (if jsTag <:+: assistant then (pysplit jsFence assistant)[1]? else some assistant) with
  | none => none
  | some a =>
    some (pystrip (if closeFence <:+: a then (pysplit closeFence a).headD [] else a))

/-- Lines 161-182: split the decoded output on the assistant marker, take the
last segment, strip fences and whitespace. -/
def generate_d3_post (response_text : String) : Option String :=
  (generate_d3_strip (pyLast (pysplit marker response_text.toList))).map String.mk

/-- Line 210: the `chat` endpoint's post-processing. -/
def chat_post (response_text : String) : String :=
  String.mk (pystrip (pyLast (pysplit marker response_text.toList)))

/-- The shared `ml_models` mapping: presence of the loaded model and
tokenizer (server.py line 12, populated at startup). -/
structure MLModels where
  model : Option Unit
  tokenizer : Option Unit

/-- Body of a `POST /generate_d3` request (server.py lines 32-35). -/
structure D3Request where
  raw_data : String
  chart_type : String
  data_type : String

/-- Body of a `POST /chat` request (lines 37-38). -/
structure ChatRequest where
  messages : List (String × String)

/-- A value returned by a handler: either a plain JSON body, or the tuple
`(body, status)` that the source returns for the model-not-loaded case.
FastAPI serializes the tuple as the body, so the status member is data in
the returned value, not an HTTP status code. -/
inductive HandlerResult where
  | body (fields : List (String × String))
  | bodyWithStatus (fields : List (String × String)) (status : Nat)
deriving DecidableEq

/-- Error message returned when the model mapping is not populated
(lines 135 and 196). -/
def modelNotLoadedMsg : String := "Model not loaded. Please check server logs."

/-- Message of Python's `IndexError` raised by indexing past the end of the
list produced by `split`, as stringified by the `except` handler. -/
def indexErrorMsg : String := "list index out of range"

/-- Lines 131-186: the `generate_d3` endpoint.  `gen` is an oracle for the
outcome of the prompt construction / tokenization / generation / decoding
performed inside the `try` block. -/
def generate_d3_handler (st : MLModels) (_req : D3Request)
    (gen : Except String String) : HandlerResult :=
  if st.model.isNone || st.tokenizer.isNone then
    HandlerResult.bodyWithStatus [("error", modelNotLoadedMsg)] 503
  else
    match gen with
    | Except.error e => HandlerResult.body [("error", e)]
    | Except.ok response_text =>
      match generate_d3_post response_text with
      | none => HandlerResult.body [("error", indexErrorMsg)]
      | some code => HandlerResult.body [("d3_code", code)]

/-- Lines 188-216: the `chat` endpoint, with the same generation oracle. -/
def chat_handler (st : MLModels) (_req : ChatRequest)
    (gen : Except String String) : HandlerResult :=
  if st.model.isNone || st.tokenizer.isNone then
    HandlerResult.bodyWithStatus [("error", modelNotLoadedMsg)] 503
  else
    match gen with
    | Except.error e => HandlerResult.body [("error", e)]
    | Except.ok response_text => HandlerResult.body [("response", chat_post response_text)]

/-- Lines 45-49: the system persona. -/
def system_prompt : String :=
  "You are an expert D3.js developer. Your task is to generate a complete, self-contained D3.js script (without the script tags) to visualize the provided data. The script must handle its own data parsing and rendering."

/-- Lines 54-57: the data block embedding `raw_data` verbatim. -/
def data_block (raw_data data_type : String) : String :=
  if data_type = "CSV" then
    "const csvData = `\n" ++ raw_data ++ "\n`;"
  else
    "const jsonData = `" ++ raw_data ++ "`;"

/-- Lines 63-66: CSV data-handling steps of the Bar Chart branch. -/
def bar_csv_steps : String :=
  "1. The CSV data is provided in a constant named `csvData`. Parse it using `d3.csvParse()`.\n2. **MOST IMPORTANT STEP:** After parsing, convert the \x27value\x27 strings to numbers using this exact code: `data.forEach(d => \x7b d.value = +d.value; \x7d);`.\n"

/-- Lines 68-70: JSON data-handling steps of the Bar Chart branch. -/
def bar_json_steps : String :=
  "1. The JSON data is provided in a constant named `jsonData`. Parse it using `JSON.parse()`.\n"

/-- Lines 77-84: the fixed tail of the Bar Chart instructions. -/
def bar_tail : String :=
  "3. Define margins, and an inner `width` and `height`.\n4. Select `d3.select(\x27#d3-container\x27)` and append an SVG.\n5. **CRITICAL: You MUST set the SVG\x27s dimensions to include the margins.** Use this exact code: `.attr(\x27width\x27, width + margin.left + margin.right).attr(\x27height\x27, height + margin.top + margin.bottom)`.\n6. After setting the dimensions, append a `<g>` element and `transform` it by the margins.\n7. Create scales. The `yScale`\x27s range MUST be `[height, 0]`.\n8. Render the x-axis and y-axis.\n9. Bind the data and append rectangles with the correct `x`, `y`, `width`, and `height` attributes, where height is `height - yScale(d.value)`.\nDo not include any HTML or CSS, only the standalone Javascript code."

/-- Lines 90-95: CSV data-format instructions of the Pie Chart branch. -/
def pie_csv_instructions : String :=
  "The data is provided as a single CSV string.\nThe script must perform these initial data-loading steps:\n1. Parse the provided CSV string into an array of objects. **You MUST use `d3.csvParse()` for this.**\n2. After parsing, you MUST iterate through the data and convert the numeric \x27value\x27 column to a number, for example: `data.forEach(d => \x7b d.value = +d.value; \x7d);` This is a critical step.\n\n"

/-- Line 97: JSON data-format instructions of the Pie Chart branch. -/
def pie_json_instructions : String :=
  "The data is provided as a single JSON string. The script should parse it before use.\n\n"

/-- Lines 103-114: the fixed tail of the Pie Chart instructions. -/
def pie_tail : String :=
  "The script must then follow these exact rendering instructions:\n1. Define width and height.\n2. Create a `d3.pie()` layout. Define it exactly like this: `const pie = d3.pie().sort(null).value(d => d.value);`\n3. Create the SVG and set its viewBox exactly like this: `.attr(\x27viewBox\x27, [-width / 2, -height / 2, width, height])`.\n4. Create two arc generators: `arc` for slices and `arcLabel` for label positions.\n5. First, append a `<g>` for slices and append paths to it. Do not use a transform on this group.\n6. Second, append a NEW, SEPARATE `<g>` for labels with `text-anchor: \x27middle\x27`.\n7. In this label group, join data and append `<text>` elements with the transform `d => `translate($\x7barcLabel.centroid(d)\x7d)`.\n8. Use `.call()` to append two `<tspan>` elements with the following exact attributes:\n   a. The first tspan for the category: `.append(\x27tspan\x27).attr(\x27y\x27, \x27-0.4em\x27).attr(\x27font-weight\x27, \x27bold\x27).text(d => d.data.category)`\n   b. The second tspan for the value: `.append(\x27tspan\x27).attr(\x27x\x27, 0).attr(\x27y\x27, \x270.7em\x27).attr(\x27fill-opacity\x27, 0.7).text(d => d.data.value)`\nDo not include any HTML or CSS, only the standalone Javascript code."

/-- Lines 51-115: the `user_prompt` string built by `create_d3_prompt`.
The `chart_type` interpolations of the source's f-strings are kept as
concatenations. -/
def create_d3_user_prompt (raw_data chart_type data_type : String) : String :=
  if chart_type = "Bar Chart" then
    "Generate a D3.js script to create a " ++ chart_type ++ ". The script must be self-contained and perform these exact steps:\n" ++
    "// Data Definition:\n" ++ data_block raw_data data_type ++ "\n\n" ++
    "// D3.js Implementation Steps:\n" ++
    (if data_type = "CSV" then bar_csv_steps else bar_json_steps) ++
    bar_tail
  else if chart_type = "Pie Chart" then
    "Generate a D3.js script to create an advanced " ++ chart_type ++ " from the following data:\n" ++
    data_block raw_data data_type ++ "\n" ++
    (if data_type = "CSV" then pie_csv_instructions else pie_json_instructions) ++
    pie_tail
  else
    ""

/-- Lines 117-120: the two-turn message list handed to
`tokenizer.apply_chat_template`. -/
def create_d3_messages (raw_data chart_type data_type : String) : List (String × String) :=
  [("system", system_prompt), ("user", create_d3_user_prompt raw_data chart_type data_type)]

/-! ### Generic list lemmas about prefixes, suffixes and infixes -/

theorem pref_of_append_of_le {α : Type} {u v w : List α} (h : u <+: v ++ w)
    (hl : u.length ≤ v.length) : u <+: v :=
  List.prefix_of_prefix_length_le h ( List.prefix_append v w) hl

theorem pref_left_of_append {α : Type} {u v w : List α} (h : u <+: v ++ w)
    (hl : v.length ≤ u.length) : v <+: u :=
  List.prefix_of_prefix_length_le ( List.prefix_append v w) h hl

theorem infix_of_pref_of_suffix {α : Type} {u t a : List α} (h1 : u <+: t)
    (h2 : t <:+ a) : u <:+: a :=
  h1.isInfix.trans h2.isInfix

theorem infix_ext_left {α : Type} {u x y : List α} (h : u <:+: y) : u <:+: x ++ y := by
  obtain ⟨s, t, hst⟩ := h
  exact ⟨x ++ s, t, by rw [← hst]; simp⟩

theorem infix_ext_right {α : Type} {u x y : List α} (h : u <:+: x) : u <:+: x ++ y := by
  obtain ⟨s, t, hst⟩ := h
  exact ⟨s, t ++ y, by rw [← hst]; simp⟩

theorem suffix_append_cases {α : Type} {t x y : List α} (h : t <:+ x ++ y) :
    t <:+ y ∨ ∃ u, u <:+ x ∧ u ≠ [] ∧ t = u ++ y := by
  rcases le_or_lt t.length y.length with hl | hl
  · exact Or.inl (List.suffix_of_suffix_length_le h ( List.suffix_append x y) hl)
  · right
    obtain ⟨s, hs⟩ := h
    have hsx : s.length ≤ x.length := by
      have := congrArg List.length hs
      simp [List.length_append] at this
      omega
    have hdrop : t = x.drop s.length ++ y := by
      have h1 : (s ++ t).drop s.length = t := List.drop_left s t
      have h2 : (x ++ y).drop s.length = x.drop s.length ++ y.drop (s.length - x.length) := by
        rw [List.drop_append_eq_append_drop]
      rw [hs] at h1
      rw [h2] at h1
      have : s.length - x.length = 0 := by omega
      rw [this, List.drop_zero] at h1
      exact h1.symm
    refine ⟨x.drop s.length, List.drop_suffix _ _, ?_, hdrop⟩
    intro hnil
    rw [hnil, List.nil_append] at hdrop
    have := congrArg List.length hdrop
    omega

theorem infix_append_cases {α : Type} {u x y : List α} (h : u <:+: x ++ y) :
    u <:+: x ∨ u <:+: y ∨
      ∃ k, 0 < k ∧ k < u.length ∧ u.take k <:+ x ∧ u.drop k <+: y := by
  obtain ⟨s, t, hst⟩ := h
  rcases le_or_lt (s.length + u.length) x.length with hin | h1
  · -- the occurrence lies inside x
    left
    have hs : s <+: x := by
      apply pref_of_append_of_le (w := y)
      · exact ⟨u ++ t, by rw [← hst]; simp⟩
      · omega
    obtain ⟨xr, hxr⟩ := hs
    have hux : u ++ t = xr ++ y := by
      have := hst
      rw [← hxr] at this
      simpa [List.append_assoc] using this
    have : u <+: xr := by
      apply pref_of_append_of_le (w := y) ⟨t, by rw [← hux]⟩
      have := congrArg List.length hxr
      simp [List.length_append] at this
      omega
    exact infix_of_pref_of_suffix this ⟨s, hxr⟩
  · rcases le_or_lt x.length s.length with h2 | h2
    · -- the occurrence lies inside y
      right; left
      have hx : x <+: s := by
        apply pref_left_of_append (w := y)
        · exact ⟨u ++ t, by rw [← hst]; simp⟩
        · exact h2
      obtain ⟨sr, hsr⟩ := hx
      have : sr ++ u ++ t = y := by
        have h0 := hst
        rw [← hsr] at h0
        simp only [List.append_assoc] at h0
        have h1 := List.append_cancel_left h0
        simpa [List.append_assoc] using h1
      exact ⟨sr, t, this⟩
    · -- the occurrence straddles the boundary
      right; right
      refine ⟨x.length - s.length, by omega, by omega, ?_, ?_⟩
      · -- u.take k is a suffix of x
        have hs : s <+: x := by
          apply pref_of_append_of_le (w := y)
          · exact ⟨u ++ t, by rw [← hst]; simp⟩
          · omega
        obtain ⟨xr, hxr⟩ := hs
        have hux : u ++ t = xr ++ y := by
          have := hst
          rw [← hxr] at this
          simpa [List.append_assoc] using this
        have hlen : xr.length = x.length - s.length := by
          have := congrArg List.length hxr
          simp [List.length_append] at this
          omega
        have hxru : xr <+: u := by
          apply pref_of_append_of_le (w := t) ⟨y, hux.symm⟩ (by omega)
        have htake : u.take (x.length - s.length) = xr := by
          rw [List.prefix_iff_eq_take] at hxru
          rw [← hlen, ← hxru]
        rw [htake]
        exact ⟨s, hxr⟩
      · -- u.drop k is a prefix of y
        have hs : s <+: x := by
          apply pref_of_append_of_le (w := y)
          · exact ⟨u ++ t, by rw [← hst]; simp⟩
          · omega
        obtain ⟨xr, hxr⟩ := hs
        have hux : u ++ t = xr ++ y := by
          have := hst
          rw [← hxr] at this
          simpa [List.append_assoc] using this
        have hlen : xr.length = x.length - s.length := by
          have := congrArg List.length hxr
          simp [List.length_append] at this
          omega
        have hxru : xr <+: u := by
          apply pref_of_append_of_le (w := t) ⟨y, hux.symm⟩ (by omega)
        have htake : u.take (x.length - s.length) = xr := by
          rw [List.prefix_iff_eq_take] at hxru
          rw [← hlen, ← hxru]
        have hdropu : (u ++ t).drop xr.length = u.drop xr.length ++ t := by
          rw [List.drop_append_eq_append_drop]
          have : xr.length - u.length = 0 := by omega
          rw [this, List.drop_zero]
        have hdropy : (xr ++ y).drop xr.length = y := List.drop_left xr y
        have : u.drop xr.length ++ t = y := by
          rw [← hdropu, hux, hdropy]
        rw [hlen] at this
        exact ⟨t, this⟩

/-! ### Basic equations and properties of `pysplitFuel` / `pysplit` -/

theorem pysplitFuel_nil (sep : List Char) (fuel : Nat) : pysplitFuel sep fuel [] = [[]] := by
  cases fuel <;> rfl

theorem pysplitFuel_cons_pos (sep : List Char) (fuel : Nat) (c : Char) (cs : List Char)
    (h : sep ≠ [] ∧ sep <+: (c :: cs)) :
    pysplitFuel sep (fuel + 1) (c :: cs) =
      [] :: pysplitFuel sep fuel (cs.drop (sep.length - 1)) := by
  simp only [pysplitFuel]
  rw [if_pos h]

theorem pysplitFuel_cons_neg (sep : List Char) (fuel : Nat) (c : Char) (cs hd : List Char)
    (tl : List (List Char)) (h : ¬ (sep ≠ [] ∧ sep <+: (c :: cs)))
    (hrec : pysplitFuel sep fuel cs = hd :: tl) :
    pysplitFuel sep (fuel + 1) (c :: cs) = (c :: hd) :: tl := by
  simp only [pysplitFuel]
  rw [if_neg h, hrec]

theorem pysplitFuel_ne_nil (sep : List Char) : ∀ fuel s, pysplitFuel sep fuel s ≠ [] := by
  intro fuel
  induction fuel with
  | zero => intro s; cases s <;> simp [pysplitFuel]
  | succ f ih =>
    intro s
    cases s with
    | nil => simp [pysplitFuel_nil]
    | cons c cs =>
      by_cases h : sep ≠ [] ∧ sep <+: (c :: cs)
      · rw [pysplitFuel_cons_pos sep f c cs h]; simp
      · rcases hrec : pysplitFuel sep f cs with _ | ⟨hd, tl⟩
        · exact absurd hrec (ih cs)
        · rw [pysplitFuel_cons_neg sep f c cs hd tl h hrec]; simp

theorem pysplit_ne_nil (sep s : List Char) : pysplit sep s ≠ [] :=
  pysplitFuel_ne_nil sep s.length s

theorem pysplitFuel_no_occurrence (sep : List Char) :
    ∀ fuel s, ¬ sep <:+: s → pysplitFuel sep fuel s = [s] := by
  intro fuel
  induction fuel with
  | zero => intro s _; cases s <;> rfl
  | succ f ih =>
    intro s hs
    cases s with
    | nil => rfl
    | cons c cs =>
      have hng : ¬ (sep ≠ [] ∧ sep <+: (c :: cs)) := by
        rintro ⟨-, hp⟩
        exact hs hp.isInfix
      have hcs : ¬ sep <:+: cs := fun hinf => hs (List.infix_cons hinf)
      exact pysplitFuel_cons_neg sep f c cs cs [] hng (ih cs hcs)

theorem pysplit_no_occurrence (sep s : List Char) (h : ¬ sep <:+: s) :
    pysplit sep s = [s] :=
  pysplitFuel_no_occurrence sep s.length s h

theorem pysplitFuel_stable (sep : List Char) :
    ∀ f₁ f₂ s, s.length ≤ f₁ → s.length ≤ f₂ →
      pysplitFuel sep f₁ s = pysplitFuel sep f₂ s := by
  intro f₁
  induction f₁ with
  | zero =>
    intro f₂ s h1 _
    have : s = [] := List.eq_nil_of_length_eq_zero (by omega)
    subst this
    rw [pysplitFuel_nil, pysplitFuel_nil]
  | succ f ih =>
    intro f₂ s h1 h2
    cases s with
    | nil => rw [pysplitFuel_nil, pysplitFuel_nil]
    | cons c cs =>
      obtain ⟨f₂', rfl⟩ : ∃ g, f₂ = g + 1 := by
        cases f₂
        · simp at h2
        · exact ⟨_, rfl⟩
      by_cases h : sep ≠ [] ∧ sep <+: (c :: cs)
      · rw [pysplitFuel_cons_pos sep f c cs h, pysplitFuel_cons_pos sep f₂' c cs h]
        have hlf : (cs.drop (sep.length - 1)).length ≤ f := by
          simp only [List.length_drop]
          simp only [List.length_cons] at h1
          omega
        have hlf2 : (cs.drop (sep.length - 1)).length ≤ f₂' := by
          simp only [List.length_drop]
          simp only [List.length_cons] at h2
          omega
        rw [ih f₂' _ hlf hlf2]
      · have hcs1 : cs.length ≤ f := by simp only [List.length_cons] at h1; omega
        have hcs2 : cs.length ≤ f₂' := by simp only [List.length_cons] at h2; omega
        rcases hrec : pysplitFuel sep f cs with _ | ⟨hd, tl⟩
        · exact absurd hrec (pysplitFuel_ne_nil sep f cs)
        · rw [pysplitFuel_cons_neg sep f c cs hd tl h hrec,
              pysplitFuel_cons_neg sep f₂' c cs hd tl h (by rw [← ih f₂' cs hcs1 hcs2]; exact hrec)]

theorem pysplitFuel_append (sep b : List Char) (hsep : sep ≠ []) :
    ∀ a fuel, (a ++ sep ++ b).length ≤ fuel →
      (∀ t, t <:+ a → t ≠ [] → ¬ sep <+: (t ++ sep ++ b)) →
      pysplitFuel sep fuel (a ++ sep ++ b) = a :: pysplit sep b := by
  intro a
  induction a with
  | nil =>
    intro fuel hf _
    obtain ⟨d, ds, hd⟩ : ∃ d ds, sep = d :: ds := by
      cases sep
      · exact absurd rfl hsep
      · exact ⟨_, _, rfl⟩
    subst hd
    obtain ⟨f, rfl⟩ : ∃ f, fuel = f + 1 := by
      cases fuel
      · simp [List.length_append] at hf
      · exact ⟨_, rfl⟩
    have hshape : ([] ++ (d :: ds) ++ b : List Char) = d :: (ds ++ b) := rfl
    rw [hshape]
    rw [pysplitFuel_cons_pos (d :: ds) f d (ds ++ b)
      ⟨by simp, by rw [show d :: (ds ++ b) = (d :: ds) ++ b from rfl]; exact List.prefix_append _ _⟩]
    have hdrop : (ds ++ b).drop ((d :: ds).length - 1) = b := by
      simp only [List.length_cons, Nat.add_sub_cancel]
      exact List.drop_left ds b
    rw [hdrop]
    have hbf : b.length ≤ f := by
      simp only [hshape, List.length_cons, List.length_append] at hf
      omega
    rw [pysplitFuel_stable (d :: ds) f b.length b hbf (Nat.le_refl _)]
    rfl
  | cons c a' ih =>
    intro fuel hf hstr
    obtain ⟨f, rfl⟩ : ∃ f, fuel = f + 1 := by
      cases fuel
      · simp [List.length_append] at hf
      · exact ⟨_, rfl⟩
    have hshape : ((c :: a') ++ sep ++ b : List Char) = c :: (a' ++ sep ++ b) := rfl
    rw [hshape]
    have hng : ¬ (sep ≠ [] ∧ sep <+: (c :: (a' ++ sep ++ b))) := by
      rintro ⟨-, hp⟩
      exact hstr (c :: a') (List.suffix_refl _) (by simp) (by rw [hshape]; exact hp)
    have hstr' : ∀ t, t <:+ a' → t ≠ [] → ¬ sep <+: (t ++ sep ++ b) := by
      intro t ht hne
      exact hstr t (ht.trans (List.suffix_cons c a')) hne
    have hlen : (a' ++ sep ++ b).length ≤ f := by
      simp only [hshape, List.length_cons] at hf
      omega
    exact pysplitFuel_cons_neg sep f c (a' ++ sep ++ b) a' (pysplit sep b) hng
      (ih f hlen hstr')

theorem pysplit_append (sep a b : List Char) (hsep : sep ≠ [])
    (hstr : ∀ t, t <:+ a → t ≠ [] → ¬ sep <+: (t ++ sep ++ b)) :
    pysplit sep (a ++ sep ++ b) = a :: pysplit sep b :=
  pysplitFuel_append sep b hsep a (a ++ sep ++ b).length (Nat.le_refl _) hstr

theorem exists_first_dec (sep : List Char) (hsep : sep ≠ []) :
    ∀ s, sep <:+: s → ∃ a b, s = a ++ sep ++ b ∧
      ∀ t, t <:+ a → t ≠ [] → ¬ sep <+: (t ++ sep ++ b) := by
  intro s
  induction s with
  | nil => intro h; exact absurd (List.eq_nil_of_infix_nil h) hsep
  | cons c cs ih =>
    intro h
    by_cases hp : sep <+: (c :: cs)
    · obtain ⟨b, hb⟩ := hp
      refine ⟨[], b, by simp [← hb], ?_⟩
      intro t ht hne
      rw [List.suffix_nil] at ht
      exact absurd ht hne
    · have hcs : sep <:+: cs := by
        rcases List.infix_cons_iff.mp h with hpre | hinf
        · exact absurd hpre hp
        · exact hinf
      obtain ⟨a', b, hab, hcond⟩ := ih hcs
      refine ⟨c :: a', b, by rw [hab]; rfl, ?_⟩
      intro t ht hne hpre2
      rcases List.suffix_cons_iff.mp ht with heq | ht'
      · subst heq
        apply hp
        have : ((c :: a') ++ sep ++ b : List Char) = c :: (a' ++ sep ++ b) := rfl
        rw [this, ← hab] at hpre2
        exact hpre2
      · exact hcond t ht' hne hpre2

theorem no_straddle_of_no_overlap (sep a b : List Char)
    (hnov : ∀ k, k < sep.length → 0 < k → ¬ (sep.drop k <+: sep))
    (ha : ¬ sep <:+: a) :
    ∀ t, t <:+ a → t ≠ [] → ¬ sep <+: (t ++ sep ++ b) := by
  intro t hts htne hp
  have hp' : sep <+: t ++ (sep ++ b) := by simpa [List.append_assoc] using hp
  rcases le_or_lt sep.length t.length with hl | hl
  · exact ha (infix_of_pref_of_suffix (pref_of_append_of_le hp' hl) hts)
  · have htp : t <+: sep := pref_left_of_append hp' (le_of_lt hl)
    obtain ⟨u, hu⟩ := htp
    have hu' : u <+: sep ++ b := by
      have h2 : t ++ u <+: t ++ (sep ++ b) := by rw [hu]; exact hp'
      exact (List.prefix_append_right_inj t).mp h2
    have hu2 : u <+: sep := by
      apply pref_of_append_of_le hu'
      have := congrArg List.length hu
      simp [List.length_append] at this
      omega
    have hdrop : sep.drop t.length = u := by rw [← hu]; exact List.drop_left t u
    exact hnov t.length hl (List.length_pos.mpr htne) (hdrop ▸ hu2)

/-! ### Facts about the specific separators -/

theorem jsFence_no_overlap :
    ∀ k, k < jsFence.length → 0 < k → ¬ (jsFence.drop k <+: jsFence) := by decide

theorem marker_no_overlap :
    ∀ k, k < marker.length → 0 < k → ¬ (marker.drop k <+: marker) := by decide

theorem close_take_pref {k : Nat} (h0 : 0 < k) (h2 : k ≤ 2) :
    closeFence <+: closeFence.take k ++ twoBt := by
  have hk : k = 1 ∨ k = 2 := by omega
  rcases hk with rfl | rfl <;> decide

theorem close_infix_of_take_suffix {code : List Char} {k : Nat} (h0 : 0 < k) (h2 : k ≤ 2)
    (hts : closeFence.take k <:+ code) : closeFence <:+: code ++ twoBt := by
  obtain ⟨x, hx⟩ := hts
  have h3 : code ++ twoBt = x ++ (closeFence.take k ++ twoBt) := by
    rw [← hx, List.append_assoc]
  obtain ⟨y, hy⟩ := close_take_pref h0 h2
  exact ⟨x, y, by rw [h3, ← hy]; simp [List.append_assoc]⟩

theorem closeFence_no_straddle {code : List Char} (b : List Char)
    (hcode : ¬ closeFence <:+: (code ++ twoBt)) :
    ∀ t, t <:+ code → t ≠ [] → ¬ closeFence <+: (t ++ closeFence ++ b) := by
  intro t hts htne hp
  have hp' : closeFence <+: t ++ (closeFence ++ b) := by simpa [List.append_assoc] using hp
  rcases le_or_lt closeFence.length t.length with hl | hl
  · have h1 : closeFence <+: t := pref_of_append_of_le hp' hl
    exact hcode (infix_ext_right (infix_of_pref_of_suffix h1 hts))
  · have htp : t <+: closeFence := pref_left_of_append hp' (le_of_lt hl)
    have htk : t = closeFence.take t.length := List.prefix_iff_eq_take.mp htp
    apply hcode
    have hcl : closeFence.length = 3 := by decide
    apply close_infix_of_take_suffix (List.length_pos.mpr htne) (by omega)
    rw [← htk]
    exact hts

theorem headD_pysplit_close (code w : List Char) (hcode : ¬ closeFence <:+: (code ++ twoBt)) :
    (pysplit closeFence (code ++ closeFence ++ w)).headD [] = code := by
  rw [pysplit_append closeFence code w (by decide) (closeFence_no_straddle w hcode)]
  rfl

/-! ### Where the fence opener can occur in the assistant segment -/

theorem jsFence_infix_post (code post : List Char)
    (hcode : ¬ closeFence <:+: (code ++ twoBt))
    (hp1 : ¬ (jsFence.drop 1) <+: post)
    (hp2 : ¬ (jsFence.drop 2) <+: post)
    (hp3 : ¬ (jsFence.drop 3) <+: post)
    (hin : jsFence <:+: (code ++ closeFence ++ post)) :
    jsFence <:+: post := by
  have hin' : jsFence <:+: code ++ (closeFence ++ post) := by
    simpa [List.append_assoc] using hin
  rcases infix_append_cases hin' with hc | hrest | ⟨k, hk0, hklen, htk, hdk⟩
  · exact absurd (infix_ext_right ((show closeFence <+: jsFence by decide).isInfix.trans hc)) hcode
  · rcases infix_append_cases hrest with hcf | hpost | ⟨k, hk0, hklen, htk, hdk⟩
    · have h1 := hcf.length_le
      have e1 : jsFence.length = 14 := by decide
      have e2 : closeFence.length = 3 := by decide
      omega
    · exact hpost
    · have e1 : jsFence.length = 14 := by decide
      have e2 : closeFence.length = 3 := by decide
      have hk3 : k ≤ 3 := by
        have h1 := htk.length_le
        have e3 : (jsFence.take k).length = k := by
          simp [List.length_take]
          omega
        omega
      have hk123 : k = 1 ∨ k = 2 ∨ k = 3 := by omega
      rcases hk123 with rfl | rfl | rfl
      · exact absurd hdk hp1
      · exact absurd hdk hp2
      · exact absurd hdk hp3
  · rcases le_or_lt 3 k with h3 | h3
    · have hcp : closeFence <+: jsFence.take k := by
        have hall : ∀ j, j < jsFence.length → 3 ≤ j → closeFence <+: jsFence.take j := by decide
        exact hall k hklen h3
      exact absurd (infix_ext_right (infix_of_pref_of_suffix hcp htk)) hcode
    · have heq : jsFence.take k = closeFence.take k := by
        have hall : ∀ j, j < 3 → jsFence.take j = closeFence.take j := by decide
        exact hall k h3
      rw [heq] at htk
      exact absurd (close_infix_of_take_suffix hk0 (by omega) htk) hcode

theorem jsFence_append_cond (code p1 p2 post : List Char)
    (hcode : ¬ closeFence <:+: (code ++ twoBt))
    (hpost : post = p1 ++ jsFence ++ p2)
    (hp1 : ¬ (jsFence.drop 1) <+: post)
    (hp2 : ¬ (jsFence.drop 2) <+: post)
    (hp3 : ¬ (jsFence.drop 3) <+: post)
    (hcond : ∀ t, t <:+ p1 → t ≠ [] → ¬ jsFence <+: (t ++ jsFence ++ p2)) :
    ∀ t, t <:+ (code ++ closeFence ++ p1) → t ≠ [] → ¬ jsFence <+: (t ++ jsFence ++ p2) := by
  intro t ht htne hp
  rcases suffix_append_cases ht with htp1 | ⟨u, hu, hune, rfl⟩
  · exact hcond t htp1 htne hp
  · rcases suffix_append_cases hu with hucf | ⟨v, hv, hvne, rfl⟩
    · obtain ⟨s, hs⟩ := hucf
      have e2 : closeFence.length = 3 := by decide
      have hul : 0 < u.length := List.length_pos.mpr hune
      have hsl2 : s.length < 3 := by
        have := congrArg List.length hs
        simp [List.length_append] at this
        omega
      have hud : u = closeFence.drop s.length := by
        rw [← hs]
        exact (List.drop_left s u).symm
      have hutake : u = jsFence.take (3 - s.length) := by
        have hall : ∀ j, j < 3 → closeFence.drop j = jsFence.take (3 - j) := by decide
        rw [hud, hall s.length hsl2]
      have hp' : jsFence <+: (u ++ p1) ++ (jsFence ++ p2) := by
        simpa [List.append_assoc] using hp
      rcases le_or_lt jsFence.length (u ++ p1).length with hlen | hlen
      · have h1 : jsFence <+: u ++ p1 := pref_of_append_of_le hp' hlen
        rw [hutake] at h1
        have h2 : jsFence.take (3 - s.length) ++ jsFence.drop (3 - s.length) <+:
            jsFence.take (3 - s.length) ++ p1 := by
          rw [List.take_append_drop]
          exact h1
        have h3 : jsFence.drop (3 - s.length) <+: p1 := (List.prefix_append_right_inj _).mp h2
        have h4 : p1 <+: post := by
          rw [hpost]
          exact ⟨jsFence ++ p2, by simp [List.append_assoc]⟩
        have h5 : jsFence.drop (3 - s.length) <+: post := h3.trans h4
        have hm : 3 - s.length = 1 ∨ 3 - s.length = 2 ∨ 3 - s.length = 3 := by omega
        rcases hm with hm | hm | hm <;> rw [hm] at h5
        · exact hp1 h5
        · exact hp2 h5
        · exact hp3 h5
      · have hq : (u ++ p1) <+: jsFence := pref_left_of_append hp' (le_of_lt hlen)
        have hdec2 : (u ++ p1) ++ jsFence.drop (u ++ p1).length = jsFence :=
          List.prefix_iff_eq_append.mp hq
        have h2 : (u ++ p1) ++ jsFence.drop (u ++ p1).length <+: (u ++ p1) ++ (jsFence ++ p2) := by
          rw [hdec2]
          exact hp'
        have h3 : jsFence.drop (u ++ p1).length <+: jsFence ++ p2 :=
          (List.prefix_append_right_inj _).mp h2
        have h4 : jsFence.drop (u ++ p1).length <+: jsFence := by
          apply pref_of_append_of_le h3
          simp [List.length_drop]
        have h5 : 0 < (u ++ p1).length := by
          simp only [List.length_append]
          omega
        exact jsFence_no_overlap (u ++ p1).length hlen h5 h4
    · have hcf : closeFence <+: v ++ closeFence ++ (p1 ++ (jsFence ++ p2)) := by
        have h0 : closeFence <+: jsFence := by decide
        have h1 := h0.trans hp
        simpa [List.append_assoc] using h1
      exact closeFence_no_straddle (p1 ++ (jsFence ++ p2)) hcode v hv hvne hcf

theorem headD_pysplit_jsFence (code post : List Char)
    (hcode : ¬ closeFence <:+: (code ++ twoBt))
    (hp1 : ¬ (jsFence.drop 1) <+: post)
    (hp2 : ¬ (jsFence.drop 2) <+: post)
    (hp3 : ¬ (jsFence.drop 3) <+: post) :
    ∃ w, (pysplit jsFence (code ++ closeFence ++ post)).headD [] = code ++ closeFence ++ w := by
  by_cases hin : jsFence <:+: (code ++ closeFence ++ post)
  · have hpost := jsFence_infix_post code post hcode hp1 hp2 hp3 hin
    obtain ⟨p1, p2, hdec, hcond⟩ := exists_first_dec jsFence (by decide) post hpost
    have hre : code ++ closeFence ++ post = (code ++ closeFence ++ p1) ++ jsFence ++ p2 := by
      rw [hdec]
      simp [List.append_assoc]
    rw [hre, pysplit_append jsFence (code ++ closeFence ++ p1) p2 (by decide)
      (jsFence_append_cond code p1 p2 post hcode hdec hp1 hp2 hp3 hcond)]
    exact ⟨p1, rfl⟩
  · rw [pysplit_no_occurrence jsFence _ hin]
    exact ⟨post, rfl⟩

/-! ### Evaluation lemmas for `generate_d3_strip` -/

theorem getElem1_cons_headD (pre : List Char) (L : List (List Char)) (h : L ≠ []) :
    (pre :: L)[1]? = some (L.headD []) := by
  rcases L with _ | ⟨hd, tl⟩
  · exact absurd rfl h
  · simp

theorem generate_d3_strip_eq (assistant a2 : List Char)
    (h1 : jsTag <:+: assistant)
    (h2 : (pysplit jsFence assistant)[1]? = some a2) :
    generate_d3_strip assistant =
      some (pystrip (if closeFence <:+: a2 then (pysplit closeFence a2).headD [] else a2)) := by
  unfold generate_d3_strip
  rw [if_pos h1, h2]

theorem generate_d3_strip_eq_noTag (assistant : List Char) (h1 : ¬ jsTag <:+: assistant) :
    generate_d3_strip assistant =
      some (pystrip
        (if closeFence <:+: assistant then (pysplit closeFence assistant).headD [] else assistant)) := by
  unfold generate_d3_strip
  rw [if_neg h1]

theorem generate_d3_strip_none (assistant : List Char)
    (h1 : jsTag <:+: assistant) (h2 : (pysplit jsFence assistant)[1]? = none) :
    generate_d3_strip assistant = none := by
  unfold generate_d3_strip
  rw [if_pos h1, h2]

/-- Claim C1: when the post-assistant-marker segment of the decoded output
decomposes as `pre ++ "```javascript\n" ++ code ++ "```" ++ post` — with the
opener not occurring in `pre`, the block body free of closing fences and not
ending in backticks that would merge with the closing fence, and `post` not
beginning with a mid-fence continuation of the opener — the `generate_d3`
post-processing returns exactly the block body with leading and trailing
whitespace removed, whatever explanatory text `post` holds after the closing
fence. -/
theorem C1_fence_roundtrip (response : String) (pre code post : List Char)
    (hseg : pyLast (pysplit marker response.toList) =
      pre ++ jsFence ++ (code ++ closeFence ++ post))
    (hpre : ¬ jsFence <:+: pre)
    (hcode : ¬ closeFence <:+: (code ++ twoBt))
    (hp1 : ¬ (jsFence.drop 1) <+: post)
    (hp2 : ¬ (jsFence.drop 2) <+: post)
    (hp3 : ¬ (jsFence.drop 3) <+: post) :
    generate_d3_post response = some (String.mk (pystrip code)) := by
  have htag : jsTag <:+: pre ++ jsFence ++ (code ++ closeFence ++ post) :=
    (show jsTag <+: jsFence by decide).isInfix.trans (List.infix_append pre jsFence _)
  have hsplit : pysplit jsFence (pre ++ jsFence ++ (code ++ closeFence ++ post)) =
      pre :: pysplit jsFence (code ++ closeFence ++ post) :=
    pysplit_append jsFence pre _ (by decide)
      (no_straddle_of_no_overlap jsFence pre _ jsFence_no_overlap hpre)
  obtain ⟨w, hw⟩ := headD_pysplit_jsFence code post hcode hp1 hp2 hp3
  have h2 : (pysplit jsFence (pre ++ jsFence ++ (code ++ closeFence ++ post)))[1]? =
      some (code ++ closeFence ++ w) := by
    rw [hsplit, getElem1_cons_headD pre _ (pysplit_ne_nil _ _), hw]
  have hstrip := generate_d3_strip_eq _ _ htag h2
  rw [if_pos (List.infix_append code closeFence w),
      headD_pysplit_close code w hcode] at hstrip
  unfold generate_d3_post
  rw [hseg, hstrip]
  rfl

/-- Witness for C1 at a concrete decoded output with explanatory text after
the closing fence. -/
theorem C1_witness :
    generate_d3_post "<|im_start|>assistant\nSure:\n```javascript\nconst x = 1;\n```\nDone." =
      some "const x = 1;" :=
  (C1_fence_roundtrip "<|im_start|>assistant\nSure:\n```javascript\nconst x = 1;\n```\nDone."
    "Sure:\n".toList "const x = 1;\n".toList "\nDone.".toList
    (by decide) (by decide) (by decide) (by decide) (by decide) (by decide)).trans (by decide)

/-- Claim C2: if the decoded output contains no assistant-turn marker, the
(total) post-processing leaves the text unchanged as the final segment of
the split, and the chat endpoint treats the full text as the assistant
response (only stripping whitespace). -/
theorem C2_absent_marker (s : String) (h : ¬ marker <:+: s.toList) :
    pyLast (pysplit marker s.toList) = s.toList ∧
      chat_post s = String.mk (pystrip s.toList) := by
  have h1 : pysplit marker s.toList = [s.toList] := pysplit_no_occurrence marker _ h
  constructor
  · rw [h1]
    rfl
  · unfold chat_post
    rw [h1]
    rfl

/-- Witness for C2 at a concrete marker-free decoded output. -/
theorem C2_witness :
    pyLast (pysplit marker "hello world".toList) = "hello world".toList ∧
      chat_post "hello world" = String.mk (pystrip "hello world".toList) :=
  C2_absent_marker "hello world" (by decide)

/-- Claim C9: when the post-marker segment contains "```javascript" but not
"```javascript\n", the split on the opener returns a single segment, so the
index `[1]` raises IndexError; the handler catches it and answers with an
error payload instead of any d3_code. -/
theorem C9_index_error (response : String) (st : MLModels) (req : D3Request)
    (htag : jsTag <:+: pyLast (pysplit marker response.toList))
    (hnofence : ¬ jsFence <:+: pyLast (pysplit marker response.toList))
    (hm : st.model = some ()) (ht : st.tokenizer = some ()) :
    generate_d3_post response = none ∧
      generate_d3_handler st req (Except.ok response) =
        HandlerResult.body [("error", indexErrorMsg)] := by
  have h1 : pysplit jsFence (pyLast (pysplit marker response.toList)) =
      [pyLast (pysplit marker response.toList)] := pysplit_no_occurrence _ _ hnofence
  have h2 : (pysplit jsFence (pyLast (pysplit marker response.toList)))[1]? = none := by
    rw [h1]
    rfl
  have h4 : generate_d3_post response = none := by
    unfold generate_d3_post
    rw [generate_d3_strip_none _ htag h2]
    rfl
  refine ⟨h4, ?_⟩
  unfold generate_d3_handler
  rw [hm, ht]
  simp [h4]

/-- Witness for C9 at a concrete decoded output whose tag is not followed by
a newline. -/
theorem C9_witness :
    generate_d3_post "x```javascript y" = none ∧
      generate_d3_handler ⟨some (), some ()⟩ ⟨"", "", ""⟩ (Except.ok "x```javascript y") =
        HandlerResult.body [("error", indexErrorMsg)] :=
  C9_index_error "x```javascript y" ⟨some (), some ()⟩ ⟨"", "", ""⟩
    (by decide) (by decide) rfl rfl

/-- Claim C10: the recognized opener is only "```javascript\n": on a segment
with a bare fence but no "```javascript", the returned d3_code is everything
before the first "```", trimmed; in particular a segment that begins with a
bare fence yields the empty string. -/
theorem C10_bare_fence (response : String) (a b : List Char)
    (hseg : pyLast (pysplit marker response.toList) = a ++ closeFence ++ b)
    (hnotag : ¬ jsTag <:+: (a ++ closeFence ++ b))
    (ha : ¬ closeFence <:+: (a ++ twoBt)) :
    generate_d3_post response = some (String.mk (pystrip a)) := by
  have hstrip := generate_d3_strip_eq_noTag (a ++ closeFence ++ b) hnotag
  rw [if_pos (List.infix_append a closeFence b),
      headD_pysplit_close a b ha] at hstrip
  unfold generate_d3_post
  rw [hseg, hstrip]
  rfl

/-- Witness for C10: a segment that begins with a bare fence yields the
empty string rather than the fenced code. -/
theorem C10_witness :
    generate_d3_post "```\nlet x = 1;\n```" = some "" :=
  (C10_bare_fence "```\nlet x = 1;\n```" [] "\nlet x = 1;\n```".toList
    (by decide) (by decide) (by decide)).trans (by decide)

/-- Claim C7: when the shared mapping lacks the model or the tokenizer, both
endpoints return the error payload as a normal value — the (body, 503) tuple —
rather than raising; the 503 is a member of the returned tuple value, not an
HTTP status code (the model renders the tuple as data in `HandlerResult`). -/
theorem C7_model_not_loaded (st : MLModels) (req : D3Request) (creq : ChatRequest)
    (g1 g2 : Except String String)
    (h : st.model = none ∨ st.tokenizer = none) :
    generate_d3_handler st req g1 =
        HandlerResult.bodyWithStatus [("error", modelNotLoadedMsg)] 503 ∧
      chat_handler st creq g2 =
        HandlerResult.bodyWithStatus [("error", modelNotLoadedMsg)] 503 := by
  have hb : (st.model.isNone || st.tokenizer.isNone) = true := by
    rcases h with h | h <;> simp [h]
  refine ⟨?_, ?_⟩
  · unfold generate_d3_handler
    rw [if_pos hb]
  · unfold chat_handler
    rw [if_pos hb]

/-- Witness for C7 with the empty mapping. -/
theorem C7_witness :
    generate_d3_handler ⟨none, none⟩ ⟨"", "", ""⟩ (Except.ok "x") =
        HandlerResult.bodyWithStatus [("error", modelNotLoadedMsg)] 503 ∧
      chat_handler ⟨none, none⟩ ⟨[]⟩ (Except.ok "y") =
        HandlerResult.bodyWithStatus [("error", modelNotLoadedMsg)] 503 :=
  C7_model_not_loaded ⟨none, none⟩ ⟨"", "", ""⟩ ⟨[]⟩ (Except.ok "x") (Except.ok "y") (Or.inl rfl)

/-- Claim C8: with the model loaded, an exception raised during prompt
construction, tokenization or generation (the `.error e` oracle outcome) is
caught by each handler and surfaced as a plain JSON body holding the
exception's message in an "error" field; the handler returns normally and
sets no error HTTP status on this path. -/
theorem C8_exception_caught (st : MLModels) (req : D3Request) (creq : ChatRequest)
    (e e' : String) (hm : st.model = some ()) (ht : st.tokenizer = some ()) :
    generate_d3_handler st req (Except.error e) = HandlerResult.body [("error", e)] ∧
      chat_handler st creq (Except.error e') = HandlerResult.body [("error", e')] := by
  have hb : ¬ (st.model.isNone || st.tokenizer.isNone) = true := by simp [hm, ht]
  refine ⟨?_, ?_⟩
  · unfold generate_d3_handler
    rw [if_neg hb]
  · unfold chat_handler
    rw [if_neg hb]

/-- Witness for C8 at a concrete exception message. -/
theorem C8_witness :
    generate_d3_handler ⟨some (), some ()⟩ ⟨"", "", ""⟩ (Except.error "boom") =
        HandlerResult.body [("error", "boom")] ∧
      chat_handler ⟨some (), some ()⟩ ⟨[]⟩ (Except.error "crash") =
        HandlerResult.body [("error", "crash")] :=
  C8_exception_caught ⟨some (), some ()⟩ ⟨"", "", ""⟩ ⟨[]⟩ "boom" "crash" rfl rfl

/-- Claim C5: for any chart_type outside "Bar Chart" and "Pie Chart",
`create_d3_prompt` still builds the message list with the full system persona
while the user-instruction content is the empty string; the fallback is
silent — the builder is total and reports no error. -/
theorem C5_unknown_chart (raw dt ct : String)
    (h1 : ct ≠ "Bar Chart") (h2 : ct ≠ "Pie Chart") :
    create_d3_messages raw ct dt = [("system", system_prompt), ("user", "")] := by
  unfold create_d3_messages create_d3_user_prompt
  rw [if_neg h1, if_neg h2]

/-- Witness for C5 at an unrecognized chart type. -/
theorem C5_witness :
    create_d3_messages "a,b\n1,2" "Line Chart" "CSV" =
      [("system", system_prompt), ("user", "")] :=
  C5_unknown_chart "a,b\n1,2" "CSV" "Line Chart" (by decide) (by decide)

/-- Claim C6: the data block embeds raw_data verbatim inside a
backtick-delimited constant: data_type "CSV" yields the csvData constant
with surrounding newlines, and any other data_type (including unrecognized
ones) silently falls through to the default jsonData constant. -/
theorem C6_data_block (raw dt : String) :
    (dt = "CSV" → data_block raw dt = "const csvData = `\n" ++ raw ++ "\n`;") ∧
      (dt ≠ "CSV" → data_block raw dt = "const jsonData = `" ++ raw ++ "`;") := by
  constructor
  · intro h
    unfold data_block
    rw [if_pos h]
  · intro h
    unfold data_block
    rw [if_neg h]

/-- Witness for C6 at a CSV and at an unrecognized data_type. -/
theorem C6_witness :
    data_block "a,b\n1,2" "CSV" = "const csvData = `\n" ++ "a,b\n1,2" ++ "\n`;" ∧
      data_block "[1, 2]" "XML" = "const jsonData = `" ++ "[1, 2]" ++ "`;" :=
  ⟨(C6_data_block "a,b\n1,2" "CSV").1 rfl, (C6_data_block "[1, 2]" "XML").2 (by decide)⟩

/-! ### Containment of instruction literals in the built prompts -/

theorem string_toList_append (s t : String) : (s ++ t).toList = s.toList ++ t.toList := rfl

/-- The numeric-coercion instruction for the "value" field. -/
def coercion_instr : String := "data.forEach(d => \x7b d.value = +d.value; \x7d);"

/-- The JSON-parsing instruction text. -/
def json_parse_instr : String := "JSON.parse()"

/-- The CSV-parsing instruction text. -/
def csv_parse_instr : String := "d3.csvParse"

/-- The pie-layout definition with null sort and value accessor. -/
def pie_layout_instr : String := "const pie = d3.pie().sort(null).value(d => d.value);"

/-- The first tspan (category label) instruction. -/
def tspan_category_instr : String :=
  ".append(\x27tspan\x27).attr(\x27y\x27, \x27-0.4em\x27).attr(\x27font-weight\x27, \x27bold\x27).text(d => d.data.category)"

/-- The second tspan (value label) instruction. -/
def tspan_value_instr : String :=
  ".append(\x27tspan\x27).attr(\x27x\x27, 0).attr(\x27y\x27, \x270.7em\x27).attr(\x27fill-opacity\x27, 0.7).text(d => d.data.value)"

/-- Constant text of the Bar/CSV prompt before the embedded raw_data. -/
def barCsvPre : String :=
  "Generate a D3.js script to create a " ++ "Bar Chart" ++
    ". The script must be self-contained and perform these exact steps:\n" ++
    "// Data Definition:\n" ++ "const csvData = `\n"

/-- Constant text of the Bar/CSV prompt after the embedded raw_data. -/
def barCsvPost : String :=
  "\n`;" ++ "\n\n" ++ "// D3.js Implementation Steps:\n" ++ bar_csv_steps ++ bar_tail

theorem bar_csv_decomp (raw : String) :
    (create_d3_user_prompt raw "Bar Chart" "CSV").toList =
      barCsvPre.toList ++ (raw.toList ++ barCsvPost.toList) := by
  unfold create_d3_user_prompt data_block barCsvPre barCsvPost
  rw [if_pos rfl, if_pos rfl, if_pos rfl]
  simp [string_toList_append, List.append_assoc]

/-- Constant text of the Pie/JSON prompt before the embedded raw_data. -/
def pieJsonPre : String :=
  "Generate a D3.js script to create an advanced " ++ "Pie Chart" ++
    " from the following data:\n" ++ "const jsonData = `"

/-- Constant text of the Pie/JSON prompt after the embedded raw_data. -/
def pieJsonPost : String :=
  "`;" ++ "\n" ++ pie_json_instructions ++ pie_tail

theorem pie_json_decomp (raw : String) :
    (create_d3_user_prompt raw "Pie Chart" "JSON").toList =
      pieJsonPre.toList ++ (raw.toList ++ pieJsonPost.toList) := by
  unfold create_d3_user_prompt data_block pieJsonPre pieJsonPost
  rw [if_neg (by decide : ¬ ("Pie Chart" : String) = "Bar Chart"), if_pos rfl,
      if_neg (by decide : ¬ ("JSON" : String) = "CSV"),
      if_neg (by decide : ¬ ("JSON" : String) = "CSV")]
  simp [string_toList_append, List.append_assoc]

theorem not_infix_of_embedded {lit A B r : List Char}
    (hA : ¬ lit <:+: A) (hB : ¬ lit <:+: B) (hr : ¬ lit <:+: r)
    (hAs : ∀ k, k < lit.length → 0 < k → ¬ (lit.take k <:+ A))
    (hBp : ∀ k, k < lit.length → 0 < k → ¬ (lit.drop k <+: B)) :
    ¬ lit <:+: (A ++ (r ++ B)) := by
  intro h
  rcases infix_append_cases h with h1 | h2 | ⟨k, hk0, hklen, htk, hdk⟩
  · exact hA h1
  · rcases infix_append_cases h2 with h3 | h4 | ⟨k, hk0, hklen, htk, hdk⟩
    · exact hr h3
    · exact hB h4
    · exact hBp k hklen hk0 hdk
  · exact hAs k hklen hk0 htk

/-- Boolean containment scan; evaluates iteratively, unlike the `Decidable`
instance for `<:+:`, so the kernel can run it over long prompt strings. -/
def infixScan (sub : List Char) : List Char → Bool
  | [] => sub.isEmpty
  | c :: cs => sub.isPrefixOf (c :: cs) || infixScan sub cs

theorem infixScan_iff (sub : List Char) : ∀ s, infixScan sub s = true ↔ sub <:+: s := by
  intro s
  induction s with
  | nil => simp [infixScan, List.isEmpty_iff, List.infix_nil]
  | cons c cs ih => simp [infixScan, ih, List.infix_cons_iff]

theorem infix_of_scan {sub s : List Char} (h : infixScan sub s = true) : sub <:+: s :=
  (infixScan_iff sub s).mp h

theorem not_infix_of_scan {sub s : List Char} (h : infixScan sub s = false) : ¬ sub <:+: s :=
  fun hc => absurd ((infixScan_iff sub s).mpr hc) (by simp [h])

/-- Claim C3 (amended): for every raw_data that does not itself contain the
text "JSON.parse()", the Bar/CSV user prompt contains the literal
numeric-coercion instruction for the "value" field and does not contain the
JSON.parse instruction. -/
theorem C3_bar_csv_prompt (raw : String)
    (h : ¬ json_parse_instr.toList <:+: raw.toList) :
    coercion_instr.toList <:+: (create_d3_user_prompt raw "Bar Chart" "CSV").toList ∧
      ¬ json_parse_instr.toList <:+: (create_d3_user_prompt raw "Bar Chart" "CSV").toList := by
  rw [bar_csv_decomp raw]
  constructor
  · exact infix_ext_left (infix_ext_left (infix_of_scan (by decide)))
  · exact not_infix_of_embedded (not_infix_of_scan (by decide)) (not_infix_of_scan (by decide))
      h (by decide) (by decide)

/-- Witness for C3 at a concrete CSV raw_data. -/
theorem C3_witness :
    coercion_instr.toList <:+: (create_d3_user_prompt "a,b\n1,2" "Bar Chart" "CSV").toList ∧
      ¬ json_parse_instr.toList <:+:
        (create_d3_user_prompt "a,b\n1,2" "Bar Chart" "CSV").toList :=
  C3_bar_csv_prompt "a,b\n1,2" (not_infix_of_scan (by decide))

/-- Counterexample to C3 as stated for all raw_data: a raw_data containing
the JSON.parse text is embedded verbatim, so the produced prompt contains
the JSON.parse instruction. -/
theorem C3_counterexample :
    json_parse_instr.toList <:+:
      (create_d3_user_prompt "JSON.parse()" "Bar Chart" "CSV").toList :=
  infix_of_scan (by decide)

/-- Claim C4 (amended): for every raw_data that does not itself contain the
CSV-parsing text "d3.csvParse" or the value-coercion step, the Pie/JSON user
prompt contains the pie-layout definition with null sort and value accessor
and both tspan label instructions, and contains neither CSV-parsing
instruction. -/
theorem C4_pie_json_prompt (raw : String)
    (h1 : ¬ csv_parse_instr.toList <:+: raw.toList)
    (h2 : ¬ coercion_instr.toList <:+: raw.toList) :
    pie_layout_instr.toList <:+: (create_d3_user_prompt raw "Pie Chart" "JSON").toList ∧
      tspan_category_instr.toList <:+: (create_d3_user_prompt raw "Pie Chart" "JSON").toList ∧
      tspan_value_instr.toList <:+: (create_d3_user_prompt raw "Pie Chart" "JSON").toList ∧
      ¬ csv_parse_instr.toList <:+: (create_d3_user_prompt raw "Pie Chart" "JSON").toList ∧
      ¬ coercion_instr.toList <:+: (create_d3_user_prompt raw "Pie Chart" "JSON").toList := by
  rw [pie_json_decomp raw]
  refine ⟨?_, ?_, ?_, ?_, ?_⟩
  · exact infix_ext_left (infix_ext_left (infix_of_scan (by decide)))
  · exact infix_ext_left (infix_ext_left (infix_of_scan (by decide)))
  · exact infix_ext_left (infix_ext_left (infix_of_scan (by decide)))
  · exact not_infix_of_embedded (not_infix_of_scan (by decide)) (not_infix_of_scan (by decide))
      h1 (by decide) (by decide)
  · exact not_infix_of_embedded (not_infix_of_scan (by decide)) (not_infix_of_scan (by decide))
      h2 (by decide) (by decide)

/-- Witness for C4 at a concrete JSON raw_data. -/
theorem C4_witness :
    pie_layout_instr.toList <:+: (create_d3_user_prompt "[1, 2]" "Pie Chart" "JSON").toList ∧
      tspan_category_instr.toList <:+:
        (create_d3_user_prompt "[1, 2]" "Pie Chart" "JSON").toList ∧
      tspan_value_instr.toList <:+: (create_d3_user_prompt "[1, 2]" "Pie Chart" "JSON").toList ∧
      ¬ csv_parse_instr.toList <:+: (create_d3_user_prompt "[1, 2]" "Pie Chart" "JSON").toList ∧
      ¬ coercion_instr.toList <:+: (create_d3_user_prompt "[1, 2]" "Pie Chart" "JSON").toList :=
  C4_pie_json_prompt "[1, 2]" (not_infix_of_scan (by decide)) (not_infix_of_scan (by decide))

/-- Counterexample to C4 as stated for all raw_data: a raw_data containing
the CSV-parsing text is embedded verbatim, so the produced prompt contains
it. -/
theorem C4_counterexample :
    csv_parse_instr.toList <:+:
      (create_d3_user_prompt "d3.csvParse" "Pie Chart" "JSON").toList :=
  infix_of_scan (by decide)
